import Mathlib

/-!
Verification development for the OAuth2/PKCE session-lifecycle subsystem of
`apps/companion/src-tauri/src/oauth.rs` (with `lib.rs` as its only caller).

Modelling conventions (shallow embedding):
* Pure Rust code is translated to Lean functions field-for-field.
* The session file on disk is modelled by `StoredFile`: the file is absent,
  present but unreadable (`fs::read` fails), present but unparsable
  (`serde_json::from_slice` fails), or present with a decoded `Session`.
* The outcome of one POST to the provider's token endpoint is modelled by
  `TokenPost` (transport failure, non-success HTTP status, success status
  with unparsable body, or a decoded `TokenResp`).
* Functions that perform the token POST additionally return the number of
  grant requests they issued, so that "performs no network call" and
  "performs exactly one refresh call" are statable.
* Machine integers (`i64` timestamps) are modelled as `Int`; none of the
  modelled arithmetic can overflow in the claims' ranges.
* Strings flowing through the byte-level HTTP parsing are modelled as
  `List Char` with one char per byte (the parsing code only inspects ASCII;
  multi-byte UTF-8 re-assembly inside percent-decoding is modelled
  byte-for-byte).
-/

/-- The durable credential record (`struct Session`, oauth.rs lines 8-21). -/
structure Session where
  access_token : String
  refresh_token : Option String
  expires_at : Option Int
  id_token : Option String
  email : Option String
  name : Option String
  picture : Option String
  sub : Option String
  client_id : Option String
  client_secret : Option String
deriving DecidableEq

/-- A decoded token-endpoint response body (`struct TokenResp`,
oauth.rs lines 168-176 and 252-260; both declarations are identical). -/
structure TokenResp where
  access_token : String
  expires_in : Option Int
  refresh_token : Option String
  id_token : Option String
  token_type : Option String
  scope : Option String
deriving DecidableEq

/-- A decoded userinfo response body (`struct UserInfo`, oauth.rs lines 205-211). -/
structure UserInfo where
  sub : Option String
  email : Option String
  name : Option String
  picture : Option String
deriving DecidableEq

/-- The state of the session file on disk, as observed through
`Path::exists`, `fs::read` and `serde_json::from_slice` in `load_session`
(oauth.rs lines 32-39). `unreadable` means the file exists but `fs::read`
fails; `unparsable` means it reads but JSON decoding fails. -/
inductive StoredFile where
  | absent
  | unreadable
  | unparsable
  | valid (s : Session)
deriving DecidableEq

/-- The outcome of one POST of a grant to the provider's token endpoint:
`send()` fails at transport level, or a non-success HTTP status arrives,
or a success status whose body does not decode as `TokenResp`, or a
decoded `TokenResp`. -/
inductive TokenPost where
  | transportErr (msg : String)
  | httpErr (status : Nat) (body : String)
  | decodeErr (msg : String)
  | ok (tok : TokenResp)
deriving DecidableEq

/-- `load_session` (oauth.rs lines 32-39): absent file gives `None`; a read
failure (`fs::read(p).ok()?`) gives `None`; a parse failure
(`serde_json::from_slice(&data).ok()`) gives `None`; otherwise the decoded
session. -/
def load_session : StoredFile → Option Session
  | StoredFile.absent => none
  | StoredFile.unreadable => none
  | StoredFile.unparsable => none
  | StoredFile.valid s => some s

/-- `persist_session` (oauth.rs lines 41-56): serializes `sess` and writes
the whole file (then restricts permissions on unix). The resulting file
state holds exactly the written session. -/
def persist_session (_st : StoredFile) (sess : Session) : StoredFile :=
  StoredFile.valid sess

/-- `get_session` (oauth.rs lines 58-61): `Ok(load_session(&app))`. -/
def get_session (st : StoredFile) : Except String (Option Session) :=
  Except.ok (load_session st)

/-- `logout` (oauth.rs lines 63-70): if the file exists, attempt
`fs::remove_file` and discard its result (`let _ = ...`); always return
`Ok(())`. `removeOk` models whether the removal syscall succeeded. -/
def logout (st : StoredFile) (removeOk : Bool) : Except String Unit × StoredFile :=
  match st with
  | StoredFile.absent => (Except.ok (), StoredFile.absent)
  | st => (Except.ok (), if removeOk then StoredFile.absent else st)

/-- The in-place update `do_refresh` applies to the existing session from a
decoded refresh response (oauth.rs lines 287-294): `access_token` replaced;
`refresh_token` and `id_token` replaced only when the response carries one;
`expires_at` recomputed as `now + expires_in - 30` when `expires_in` is
present, cleared otherwise. -/
def applyRefresh (now : Int) (existing : Session) (tok : TokenResp) : Session :=
  { existing with
    access_token := tok.access_token
    refresh_token := match tok.refresh_token with
      | some rt => some rt
      | none => existing.refresh_token
    id_token := match tok.id_token with
      | some idt => some idt
      | none => existing.id_token
    expires_at := tok.expires_in.map (fun s => now + s - 30) }

/-- `do_refresh` (oauth.rs lines 241-298). Returns the command result, the
resulting file state, and the number of refresh-grant POSTs issued. The
session must carry a `refresh_token` and a `client_id` before any request
is sent; the three request-failure shapes return the source's error strings
without touching the file; on success the updated session is persisted. -/
def do_refresh (now : Int) (tp : TokenPost) (st : StoredFile) (existing : Session) :
    Except String Session × StoredFile × Nat :=
  match existing.refresh_token with
  | none => (Except.error "no refresh_token present", st, 0)
  | some _ =>
    match existing.client_id with
    | none => (Except.error "client_id missing from session", st, 0)
    | some _ =>
      match tp with
      | TokenPost.transportErr e =>
          (Except.error ("refresh token request failed: " ++ e), st, 1)
      | TokenPost.httpErr status body =>
          (Except.error ("refresh failed: " ++ toString status ++ " body=" ++ body), st, 1)
      | TokenPost.decodeErr e =>
          (Except.error ("refresh decode failed: " ++ e), st, 1)
      | TokenPost.ok tok =>
          let updated := applyRefresh now existing tok
          (Except.ok updated, persist_session st updated, 1)

/-- `ensure_fresh_session` (oauth.rs lines 306-316): load the session (error
"no session" if none); if `expires_at` is present and `expires_at - now > 60`
return it unchanged with no request; in every other case (including absent
`expires_at`) fall through to `do_refresh`. -/
def ensure_fresh_session (now : Int) (st : StoredFile) (tp : TokenPost) :
    Except String Session × StoredFile × Nat :=
  match load_session st with
  | none => (Except.error "no session", st, 0)
  | some sess =>
    match sess.expires_at with
    | some exp =>
        if exp - now > 60 then (Except.ok sess, st, 0)
        else do_refresh now tp st sess
    | none => do_refresh now tp st sess

/-- The session built at the end of `google_auth_start` from the decoded
token response and userinfo (oauth.rs lines 222-236): `expires_at` is
`now + expires_in - 30` when `expires_in` is present. -/
def mkSignInSession (now : Int) (client_id : String) (client_secret_opt : Option String)
    (tok : TokenResp) (userinfo : UserInfo) : Session :=
  { access_token := tok.access_token
    refresh_token := tok.refresh_token
    expires_at := tok.expires_in.map (fun s => now + s - 30)
    id_token := tok.id_token
    email := userinfo.email
    name := userinfo.name
    picture := userinfo.picture
    sub := userinfo.sub
    client_id := some client_id
    client_secret := client_secret_opt }

/-! ## PKCE pair generation (oauth.rs lines 101-112)

The source draws 48 random bytes, base64url-no-pad encodes them, pads the
encoding with the filler character while its length is below 43, truncates
it at 128, and derives the challenge as the base64url-no-pad encoding of
the SHA-256 digest of the verifier's bytes. The encoder, padding loop and
a full executable SHA-256 are embedded below. -/

/-- Truncate to the low 32 bits (`u32` wrap-around). -/
def w32 (n : Nat) : Nat := n % 4294967296

/-- 32-bit rotate right by `r` (the two shifted parts are disjoint, so
addition is bitwise or). -/
def rotr32 (r x : Nat) : Nat := w32 (x / 2 ^ r + x % 2 ^ r * 2 ^ (32 - r))

/-- 32-bit logical shift right by `r`. -/
def shr32 (r x : Nat) : Nat := x / 2 ^ r

/-- 32-bit bitwise complement. -/
def bnot32 (x : Nat) : Nat := Nat.xor x 4294967295

/-- SHA-256 big sigma 0. -/
def bsig0 (x : Nat) : Nat := Nat.xor (rotr32 2 x) (Nat.xor (rotr32 13 x) (rotr32 22 x))

/-- SHA-256 big sigma 1. -/
def bsig1 (x : Nat) : Nat := Nat.xor (rotr32 6 x) (Nat.xor (rotr32 11 x) (rotr32 25 x))

/-- SHA-256 small sigma 0. -/
def ssig0 (x : Nat) : Nat := Nat.xor (rotr32 7 x) (Nat.xor (rotr32 18 x) (shr32 3 x))

/-- SHA-256 small sigma 1. -/
def ssig1 (x : Nat) : Nat := Nat.xor (rotr32 17 x) (Nat.xor (rotr32 19 x) (shr32 10 x))

/-- SHA-256 choice function. -/
def chF (x y z : Nat) : Nat := Nat.xor (Nat.land x y) (Nat.land (bnot32 x) z)

/-- SHA-256 majority function. -/
def majF (x y z : Nat) : Nat :=
  Nat.xor (Nat.land x y) (Nat.xor (Nat.land x z) (Nat.land y z))

/-- The 64 SHA-256 round constants. -/
def sha256K : List Nat :=
  [1116352408, 1899447441, 3049323471, 3921009573, 961987163, 1508970993,
   2453635748, 2870763221, 3624381080, 310598401, 607225278, 1426881987,
   1925078388, 2162078206, 2614888103, 3248222580, 3835390401, 4022224774,
   264347078, 604807628, 770255983, 1249150122, 1555081692, 1996064986,
   2554220882, 2821834349, 2952996808, 3210313671, 3336571891, 3584528711,
   113926993, 338241895, 666307205, 773529912, 1294757372, 1396182291,
   1695183700, 1986661051, 2177026350, 2456956037, 2730485921, 2820302411,
   3259730800, 3345764771, 3516065817, 3600352804, 4094571909, 275423344,
   430227734, 506948616, 659060556, 883997877, 958139571, 1322822218,
   1537002063, 1747873779, 1955562222, 2024104815, 2227730452, 2361852424,
   2428436474, 2756734187, 3204031479, 3329325298]

/-- The SHA-256 initial hash state. -/
def sha256H0 : List Nat :=
  [1779033703, 3144134277, 1013904242, 2773480762,
   1359893119, 2600822924, 528734635, 1541459225]

/-- A 64-bit number as 8 big-endian bytes. -/
def be64 (n : Nat) : List Nat :=
  [n / 2 ^ 56 % 256, n / 2 ^ 48 % 256, n / 2 ^ 40 % 256, n / 2 ^ 32 % 256,
   n / 2 ^ 24 % 256, n / 2 ^ 16 % 256, n / 2 ^ 8 % 256, n % 256]

/-- SHA-256 message padding: append `0x80`, zero bytes up to 56 mod 64,
then the bit length as 8 big-endian bytes. -/
def sha256Pad (msg : List Nat) : List Nat :=
  let l := msg.length
  let k := (64 + 56 - (l + 1) % 64) % 64
  msg ++ [128] ++ List.replicate k 0 ++ be64 (8 * l)

/-- Pack bytes into big-endian 32-bit words (the padded length is a
multiple of 4, so the catch-all never drops data). -/
def wordsOfBytes : List Nat → List Nat
  | a :: b :: c :: d :: rest => (((a * 256 + b) * 256 + c) * 256 + d) :: wordsOfBytes rest
  | _ => []

/-- Split a word list into blocks of 16 words; the fuel argument (the list
length suffices) keeps the recursion structural so the kernel can
evaluate it. -/
def toBlocks : Nat → List Nat → List (List Nat)
  | 0, _ => []
  | _, [] => []
  | n + 1, l => l.take 16 :: toBlocks n (l.drop 16)

/-- Extend a 16-word block to the 64-word message schedule. -/
def extendSchedule (w : List Nat) : List Nat :=
  (List.range 48).foldl (fun acc _ =>
    acc ++ [w32 (ssig1 (acc.getD (acc.length - 2) 0) + acc.getD (acc.length - 7) 0 +
                 ssig0 (acc.getD (acc.length - 15) 0) + acc.getD (acc.length - 16) 0)]) w

/-- One SHA-256 round on the 8-word working state. -/
def compressStep : List Nat → Nat × Nat → List Nat
  | [a, b, c, d, e, f, g, h], (k, wt) =>
    let t1 := w32 (h + bsig1 e + chF e f g + k + wt)
    let t2 := w32 (bsig0 a + majF a b c)
    [w32 (t1 + t2), a, b, c, w32 (d + t1), e, f, g]
  | s, _ => s

/-- Compress one 16-word block into the hash state. -/
def compressBlock (h : List Nat) (block : List Nat) : List Nat :=
  let s := (sha256K.zip (extendSchedule block)).foldl compressStep h
  (h.zip s).map (fun p => w32 (p.1 + p.2))

/-- A 32-bit word as 4 big-endian bytes. -/
def bytesOfWord (n : Nat) : List Nat :=
  [n / 2 ^ 24 % 256, n / 2 ^ 16 % 256, n / 2 ^ 8 % 256, n % 256]

/-- SHA-256 of a byte list (`Sha256::digest`, oauth.rs line 111). -/
def sha256 (msg : List Nat) : List Nat :=
  let ws := wordsOfBytes (sha256Pad msg)
  (((toBlocks ws.length ws).foldl compressBlock sha256H0).map bytesOfWord).flatten

/-- The URL-safe base64 alphabet character for a 6-bit value. -/
def b64Char (n : Nat) : Char :=
  "ABCDEFGHIJKLMNOPQRSTUVWXYZabcdefghijklmnopqrstuvwxyz0123456789-_".data.getD n 'A'

/-- URL-safe, no-padding base64 of a byte list
(`base64::engine::general_purpose::URL_SAFE_NO_PAD.encode`). -/
def b64UrlNoPad : List Nat → List Char
  | b0 :: b1 :: b2 :: rest =>
      b64Char (b0 / 4) :: b64Char (b0 % 4 * 16 + b1 / 16) ::
        b64Char (b1 % 16 * 4 + b2 / 64) :: b64Char (b2 % 64) :: b64UrlNoPad rest
  | [b0, b1] => [b64Char (b0 / 4), b64Char (b0 % 4 * 16 + b1 / 16), b64Char (b1 % 16 * 4)]
  | [b0] => [b64Char (b0 / 4), b64Char (b0 % 4 * 16)]
  | [] => []

/-- The `while code_verifier.len() < 43 { code_verifier.push('A'); }` loop
(oauth.rs line 108), run with enough fuel: each iteration appends one
filler character, and at most 43 appends are ever needed. -/
def padLoop : Nat → List Char → List Char
  | 0, s => s
  | n + 1, s => if s.length < 43 then padLoop n (s ++ ['A']) else s

/-- The length normalization applied to the freshly encoded verifier
(oauth.rs lines 108-109): pad with the filler character up to 43, then
truncate at 128. -/
def normalizeVerifier (s : List Char) : List Char :=
  let p := padLoop 43 s
  if p.length > 128 then p.take 128 else p

/-- The code verifier produced from the drawn random bytes
(oauth.rs lines 104-109). -/
def mkCodeVerifier (vr : List Nat) : List Char :=
  normalizeVerifier (b64UrlNoPad vr)

/-- The code challenge derived from a verifier (oauth.rs lines 110-112):
URL-safe no-padding base64 of the SHA-256 digest of the verifier's bytes. -/
def mkCodeChallenge (v : List Char) : List Char :=
  b64UrlNoPad (sha256 (v.map Char.toNat))

/-! ## Redirect request parsing (oauth.rs lines 136-160)

The source reads one request from the loopback listener, takes the first
line (`req.lines().next().unwrap_or("")`), splits it on whitespace, takes
`parts[1]` as the request target, locates `'?'`, splits the query on `'&'`
and each pair on the first `'='`, percent-decodes values, rejects on a
`state` value different from the attempt's state, remembers the last
`code` value, and rejects when none was seen. -/

/-- Whether a character counts as whitespace for `split_whitespace`
(restricted to the ASCII whitespace characters; the request line only
carries ASCII). -/
def isWsChar (c : Char) : Bool :=
  c == ' ' || c == '\t' || c == '\n' || c == '\r' || c == '\x0b' || c == '\x0c'

/-- Split a character list on a separator predicate, keeping empty pieces
(the shape of Rust `split`). -/
def splitOnPred (p : Char → Bool) : List Char → List (List Char)
  | [] => [[]]
  | x :: xs =>
    let r := splitOnPred p xs
    if p x then [] :: r
    else match r with
      | h :: t => (x :: h) :: t
      | [] => [[x]]

/-- Rust `split_whitespace`: split on whitespace and drop the empty pieces. -/
def splitWs (l : List Char) : List (List Char) :=
  (splitOnPred isWsChar l).filter (fun w => w ≠ [])

/-- `req.lines().next().unwrap_or("")`: the characters before the first
newline, with the carriage return of a `\r\n` terminator stripped. -/
def firstLine (req : List Char) : List Char :=
  let l := req.takeWhile (fun c => c ≠ '\n')
  if l.length < req.length then
    match l.getLast? with
    | some '\r' => l.dropLast
    | _ => l
  else l

/-- `parts[1]` after the `parts.len() < 2` guard (oauth.rs lines 145-147):
`none` exactly when the first request line has fewer than two
whitespace-separated tokens. -/
def requestTarget (req : List Char) : Option (List Char) :=
  (splitWs (firstLine req)).get? 1

/-- `path_q.find('?')` and the slice after it (oauth.rs lines 148-149):
the query string after the first question mark, `none` when the target
has no question mark. -/
def queryOf (t : List Char) : Option (List Char) :=
  if '?' ∈ t then some ((t.dropWhile (fun c => c ≠ '?')).tail) else none

/-- The value of a hex digit, if the character is one. -/
def hexVal (c : Char) : Option Nat :=
  if '0' ≤ c ∧ c ≤ '9' then some (c.toNat - '0'.toNat)
  else if 'a' ≤ c ∧ c ≤ 'f' then some (c.toNat - 'a'.toNat + 10)
  else if 'A' ≤ c ∧ c ≤ 'F' then some (c.toNat - 'A'.toNat + 10)
  else none

/-- `urlencoding::decode(v_raw).unwrap_or_default()` at byte level: a `%`
followed by two hex digits becomes that byte; any other character (or a
`%` not followed by two hex digits) passes through unchanged. The crate
additionally validates UTF-8 and the caller collapses that failure to the
empty string; the claims touch only byte-for-byte comparisons, so decoded
bytes are kept as one character each. -/
def percentDecode : List Char → List Char
  | '%' :: a :: b :: rest =>
    match hexVal a, hexVal b with
    | some x, some y => Char.ofNat (16 * x + y) :: percentDecode rest
    | _, _ => '%' :: percentDecode (a :: b :: rest)
  | c :: rest => c :: percentDecode rest
  | [] => []

/-- `pair.splitn(2, '=')` with both pieces defaulted to empty
(oauth.rs lines 152-154): the key before the first `=` and the raw value
after it. -/
def splitPair (l : List Char) : List Char × List Char :=
  (l.takeWhile (fun c => c ≠ '='), (l.dropWhile (fun c => c ≠ '=')).tail)

/-- The key/raw-value pairs of a query string: split on `&`, then each
piece on its first `=` (oauth.rs lines 151-154). -/
def queryPairs (qs : List Char) : List (List Char × List Char) :=
  (splitOnPred (fun c => c == '&') qs).map splitPair

/-- The loop over query pairs (oauth.rs lines 151-158): error out at a
`state` key whose decoded value differs from the expected state; remember
the decoded value of the latest `code` key. -/
def scanPairs (expected : List Char) (acc : Option (List Char)) :
    List (List Char × List Char) → Except String (Option (List Char))
  | [] => Except.ok acc
  | p :: rest =>
    let v := percentDecode p.2
    if p.1 = "state".data ∧ v ≠ expected then Except.error "state mismatch"
    else scanPairs expected (if p.1 = "code".data then some v else acc) rest

/-- The whole redirect-parsing block computing `code`
(oauth.rs lines 143-160), with the source's three error strings and the
state-mismatch error from the pair loop. -/
def parseRedirect (req expected : List Char) : Except String (List Char) :=
  match requestTarget req with
  | none => Except.error "malformed redirect request"
  | some target =>
    match queryOf target with
    | none => Except.error "missing query in redirect"
    | some qs =>
      match scanPairs expected none (queryPairs qs) with
      | Except.error e => Except.error e
      | Except.ok none => Except.error "authorization code missing"
      | Except.ok (some c) => Except.ok c

/-! ## Lemmas and claim theorems: session lifecycle -/

/-- `load_session` yields a session exactly from a valid stored file. -/
theorem load_session_eq_some {st : StoredFile} {sess : Session} :
    load_session st = some sess ↔ st = StoredFile.valid sess := by
  cases st <;> simp [load_session]

/-- The number of refresh-grant POSTs `do_refresh` issues: one as soon as
both `refresh_token` and `client_id` are present, none otherwise. -/
theorem do_refresh_grant_count (now : Int) (tp : TokenPost) (st : StoredFile) (sess : Session) :
    (do_refresh now tp st sess).2.2 =
      if sess.refresh_token.isSome ∧ sess.client_id.isSome then 1 else 0 := by
  cases hr : sess.refresh_token <;> cases hc : sess.client_id <;> cases tp <;>
    simp [do_refresh, hr, hc]

/-- `do_refresh` on a session without `refresh_token` fails fast. -/
theorem do_refresh_no_refresh_token (now : Int) (tp : TokenPost) (st : StoredFile)
    (sess : Session) (h : sess.refresh_token = none) :
    do_refresh now tp st sess = (Except.error "no refresh_token present", st, 0) := by
  simp [do_refresh, h]

/-- Claim C1 counterexample: for the stored session with absent
`expires_at` (and no refresh token), `ensure_fresh_session` does not
return the loaded session unchanged as the claim demands — it falls
through to the refresh path and fails. -/
theorem ensure_fresh_absent_expiry_refreshes :
    (ensure_fresh_session 1000
        (StoredFile.valid ⟨"tok", none, none, none, none, none, none, none, none, none⟩)
        (TokenPost.ok ⟨"new", none, none, none, none, none⟩)).1
      = Except.error "no refresh_token present"
    ∧ (ensure_fresh_session 1000
        (StoredFile.valid ⟨"tok", none, none, none, none, none, none, none, none, none⟩)
        (TokenPost.ok ⟨"new", none, none, none, none, none⟩)).1
      ≠ Except.ok ⟨"tok", none, none, none, none, none, none, none, none, none⟩ :=
  ⟨rfl, fun h => Except.noConfusion h⟩

/-- Claim C1 (amended): for every stored session, `ensure_fresh_session`
returns the loaded session unchanged with no grant call exactly when
`expires_at` is present and more than 60 seconds in the future; in every
other case — including an absent `expires_at` — it runs the refresh path,
which issues exactly one refresh-grant call when the session carries both
a `refresh_token` and a `client_id`, and zero calls otherwise (in
particular, with no `refresh_token` it fails fast without any request). -/
theorem ensure_fresh_session_policy (now : Int) (st : StoredFile) (tp : TokenPost)
    (sess : Session) (h : load_session st = some sess) :
    ((∃ exp, sess.expires_at = some exp ∧ exp - now > 60) →
        ensure_fresh_session now st tp = (Except.ok sess, st, 0))
    ∧ ((¬ ∃ exp, sess.expires_at = some exp ∧ exp - now > 60) →
        ensure_fresh_session now st tp = do_refresh now tp st sess
        ∧ (ensure_fresh_session now st tp).2.2 =
            (if sess.refresh_token.isSome ∧ sess.client_id.isSome then 1 else 0)
        ∧ (sess.refresh_token = none →
            ensure_fresh_session now st tp = (Except.error "no refresh_token present", st, 0))) := by
  rw [load_session_eq_some] at h
  subst h
  constructor
  · rintro ⟨exp, hexp, hgt⟩
    simp [ensure_fresh_session, load_session, hexp, hgt]
  · intro hnot
    have hbr : ensure_fresh_session now (StoredFile.valid sess) tp =
        do_refresh now tp (StoredFile.valid sess) sess := by
      cases hexp : sess.expires_at with
      | none => simp [ensure_fresh_session, load_session, hexp]
      | some exp =>
        have hle : ¬ exp - now > 60 := fun hgt => hnot ⟨exp, hexp, hgt⟩
        simp [ensure_fresh_session, load_session, hexp, hle]
    refine ⟨hbr, ?_, ?_⟩
    · rw [hbr, do_refresh_grant_count]
    · intro hrt
      rw [hbr, do_refresh_no_refresh_token now tp _ sess hrt]

/-- Witness for the amended C1 theorem at a concrete fresh session. -/
theorem ensure_fresh_session_policy_witness :
    ensure_fresh_session 1000
        (StoredFile.valid ⟨"tok", some "r", some 2000, none, none, none, none, none, some "cid", none⟩)
        (TokenPost.transportErr "down")
      = (Except.ok ⟨"tok", some "r", some 2000, none, none, none, none, none, some "cid", none⟩,
         StoredFile.valid ⟨"tok", some "r", some 2000, none, none, none, none, none, some "cid", none⟩,
         0) :=
  (ensure_fresh_session_policy 1000
      (StoredFile.valid ⟨"tok", some "r", some 2000, none, none, none, none, none, some "cid", none⟩)
      (TokenPost.transportErr "down")
      ⟨"tok", some "r", some 2000, none, none, none, none, none, some "cid", none⟩ rfl).1
    ⟨2000, rfl, by decide⟩

/-- Claim C5 (confirmed): a successful refresh persists and returns the
updated session; when the token response omits `refresh_token` the prior
one is kept, and when it carries one the new value replaces the old. -/
theorem do_refresh_preserves_refresh_token (now : Int) (st : StoredFile) (sess : Session)
    (tok : TokenResp) (rt cid : String)
    (h1 : sess.refresh_token = some rt) (h2 : sess.client_id = some cid) :
    do_refresh now (TokenPost.ok tok) st sess =
      (Except.ok (applyRefresh now sess tok),
       StoredFile.valid (applyRefresh now sess tok), 1)
    ∧ (tok.refresh_token = none → (applyRefresh now sess tok).refresh_token = some rt)
    ∧ (∀ rt2, tok.refresh_token = some rt2 →
        (applyRefresh now sess tok).refresh_token = some rt2) := by
  refine ⟨?_, ?_, ?_⟩
  · simp [do_refresh, h1, h2, persist_session]
  · intro h; simp [applyRefresh, h, h1]
  · intro rt2 h; simp [applyRefresh, h]

/-- Witness for the C5 theorem at a concrete session and response. -/
theorem do_refresh_preserves_refresh_token_witness :
    do_refresh 0 (TokenPost.ok ⟨"new", some 3600, none, none, none, none⟩) StoredFile.absent
        ⟨"old", some "r0", some 100, none, none, none, none, none, some "cid", none⟩ =
      (Except.ok (applyRefresh 0
          ⟨"old", some "r0", some 100, none, none, none, none, none, some "cid", none⟩
          ⟨"new", some 3600, none, none, none, none⟩),
       StoredFile.valid (applyRefresh 0
          ⟨"old", some "r0", some 100, none, none, none, none, none, some "cid", none⟩
          ⟨"new", some 3600, none, none, none, none⟩), 1)
    ∧ (applyRefresh 0 ⟨"old", some "r0", some 100, none, none, none, none, none, some "cid", none⟩
        ⟨"new", some 3600, none, none, none, none⟩).refresh_token = some "r0" :=
  let h := do_refresh_preserves_refresh_token 0 StoredFile.absent
    ⟨"old", some "r0", some 100, none, none, none, none, none, some "cid", none⟩
    ⟨"new", some 3600, none, none, none, none⟩ "r0" "cid" rfl rfl
  ⟨h.1, h.2.1 rfl⟩

/-- Claim C6 (confirmed): every failing refresh — missing `refresh_token`,
missing `client_id`, transport failure, non-success status, or unparsable
body — returns an error and leaves the stored file untouched; a missing
`refresh_token` in particular yields the fatal fail-fast error. -/
theorem do_refresh_failure_no_write (now : Int) (tp : TokenPost) (st : StoredFile)
    (sess : Session)
    (h : sess.refresh_token = none ∨ sess.client_id = none ∨ ∀ tok, tp ≠ TokenPost.ok tok) :
    (do_refresh now tp st sess).1.isOk = false
    ∧ (do_refresh now tp st sess).2.1 = st
    ∧ (sess.refresh_token = none →
        (do_refresh now tp st sess).1 = Except.error "no refresh_token present") := by
  cases hr : sess.refresh_token with
  | none => simp [do_refresh, hr, Except.isOk, Except.toBool]
  | some rt =>
    refine ⟨?_, ?_, fun h2 => Option.noConfusion h2⟩ <;>
    · cases hc : sess.client_id with
      | none => simp [do_refresh, hr, hc, Except.isOk, Except.toBool]
      | some cid =>
        rcases h with h | h | h
        · rw [hr] at h; cases h
        · rw [hc] at h; cases h
        · cases tp with
          | ok tok => exact absurd rfl (h tok)
          | transportErr e => simp [do_refresh, hr, hc, Except.isOk, Except.toBool]
          | httpErr s b => simp [do_refresh, hr, hc, Except.isOk, Except.toBool]
          | decodeErr e => simp [do_refresh, hr, hc, Except.isOk, Except.toBool]

/-- Witness for the C6 theorem at a session lacking a refresh token. -/
theorem do_refresh_failure_no_write_witness :
    (do_refresh 0 (TokenPost.ok ⟨"new", none, none, none, none, none⟩) StoredFile.absent
        ⟨"tok", none, none, none, none, none, none, none, none, none⟩).1.isOk = false
    ∧ (do_refresh 0 (TokenPost.ok ⟨"new", none, none, none, none, none⟩) StoredFile.absent
        ⟨"tok", none, none, none, none, none, none, none, none, none⟩).2.1 = StoredFile.absent
    ∧ (do_refresh 0 (TokenPost.ok ⟨"new", none, none, none, none, none⟩) StoredFile.absent
        ⟨"tok", none, none, none, none, none, none, none, none, none⟩).1
        = Except.error "no refresh_token present" :=
  let h := do_refresh_failure_no_write 0 (TokenPost.ok ⟨"new", none, none, none, none, none⟩)
    StoredFile.absent ⟨"tok", none, none, none, none, none, none, none, none, none⟩ (Or.inl rfl)
  ⟨h.1, h.2.1, h.2.2 rfl⟩

/-- Claim C7 counterexample: a provider token response whose
`access_token` is the empty string is persisted verbatim at sign-in
completion, so the stored state holds a session with an empty
`access_token` — the claimed non-emptiness invariant is not enforced. -/
theorem persisted_empty_access_token :
    persist_session StoredFile.absent
        (mkSignInSession 0 "abc" none ⟨"", some 3600, some "r", none, none, none⟩
          ⟨none, none, none, none⟩)
      = StoredFile.valid
          (mkSignInSession 0 "abc" none ⟨"", some 3600, some "r", none, none, none⟩
            ⟨none, none, none, none⟩)
    ∧ (mkSignInSession 0 "abc" none ⟨"", some 3600, some "r", none, none, none⟩
          ⟨none, none, none, none⟩).access_token = "" :=
  ⟨rfl, rfl⟩

/-- Claim C7 (amended): whenever a session is persisted — at sign-in
completion or after a successful refresh — the stored file holds exactly
that session, and its `access_token` is the `access_token` string of the
provider's token response, which may be empty: the code checks presence
of the field but never non-emptiness. -/
theorem persisted_access_token_matches_provider (now : Int) (cid : String)
    (cso : Option String) (tok : TokenResp) (ui : UserInfo) (st : StoredFile)
    (sess : Session) :
    persist_session st (mkSignInSession now cid cso tok ui)
      = StoredFile.valid (mkSignInSession now cid cso tok ui)
    ∧ (mkSignInSession now cid cso tok ui).access_token = tok.access_token
    ∧ persist_session st (applyRefresh now sess tok)
      = StoredFile.valid (applyRefresh now sess tok)
    ∧ (applyRefresh now sess tok).access_token = tok.access_token :=
  ⟨rfl, rfl, rfl, rfl⟩

/-- Claim C8 (confirmed): `load_session` returns no session for an absent
file, an unreadable file and an unparsable file alike — corruption is
indistinguishable from absence at the load interface — and a session only
for a file that reads and parses. -/
theorem load_session_silences_absence_and_corruption :
    load_session StoredFile.absent = none
    ∧ load_session StoredFile.unreadable = none
    ∧ load_session StoredFile.unparsable = none
    ∧ load_session StoredFile.unreadable = load_session StoredFile.absent
    ∧ load_session StoredFile.unparsable = load_session StoredFile.absent
    ∧ ∀ s, load_session (StoredFile.valid s) = some s :=
  ⟨rfl, rfl, rfl, rfl, rfl, fun _ => rfl⟩

/-- Claim C9 counterexample: `logout` reports success while the removal
syscall fails, and the immediately following `get_session` still returns
the session — refuting "after logout succeeds, get_session returns no
session" as stated. -/
theorem logout_ok_but_session_remains :
    (logout (StoredFile.valid ⟨"tok", none, none, none, none, none, none, none, none, none⟩)
        false).1 = Except.ok ()
    ∧ get_session
        (logout (StoredFile.valid ⟨"tok", none, none, none, none, none, none, none, none, none⟩)
          false).2
      = Except.ok (some ⟨"tok", none, none, none, none, none, none, none, none, none⟩) :=
  ⟨rfl, rfl⟩

/-- Claim C9 (amended): sign-out is idempotent and silences absence
provided the underlying file removal succeeds (or the file is already
absent): then `get_session` returns no session afterwards, and a second
`logout` also succeeds with no error; `logout` however reports success
even when the removal fails, in which case the session remains. -/
theorem logout_idempotent_when_removal_succeeds (st : StoredFile) (rm : Bool) :
    get_session (logout st true).2 = Except.ok none
    ∧ (logout st rm).1 = Except.ok ()
    ∧ logout (logout st true).2 rm = (Except.ok (), StoredFile.absent)
    ∧ logout StoredFile.absent rm = (Except.ok (), StoredFile.absent) := by
  cases st <;> cases rm <;> simp [logout, get_session, load_session]

/-- Claim C10 (confirmed): `logout` returns success unconditionally; when
the file exists but its deletion fails, the error is discarded, `Ok` is
returned, and the file — hence the following `get_session` result — is
unchanged. -/
theorem logout_swallows_removal_error (s : Session) :
    (∀ st rm, (logout st rm).1 = Except.ok ())
    ∧ (logout (StoredFile.valid s) false).2 = StoredFile.valid s
    ∧ get_session (logout (StoredFile.valid s) false).2 = Except.ok (some s) := by
  refine ⟨?_, rfl, rfl⟩
  intro st rm
  cases st <;> cases rm <;> rfl

/-! ## Lemmas and claim theorem: PKCE generation -/

/-- Each iteration of the padding loop appends one filler character, so
with enough fuel the result has length `max 43` the input length. -/
theorem padLoop_length : ∀ (n : Nat) (s : List Char), s.length + n ≥ 43 →
    (padLoop n s).length = max 43 s.length
  | 0, s, h => by simp only [padLoop]; omega
  | n + 1, s, h => by
    simp only [padLoop]
    split
    · rename_i hlt
      rw [padLoop_length n (s ++ ['A']) (by simp; omega)]
      simp
      omega
    · rename_i hge
      omega

/-- The pad-then-truncate normalization clamps the length into `[43, 128]`:
the result length is `min 128 (max 43 input-length)`. -/
theorem normalizeVerifier_length (s : List Char) :
    (normalizeVerifier s).length = min 128 (max 43 s.length) := by
  have hp : (padLoop 43 s).length = max 43 s.length := padLoop_length 43 s (by omega)
  simp only [normalizeVerifier]
  split
  · rename_i h
    rw [List.length_take, hp]
  · rename_i h
    rw [hp] at h ⊢
    omega

/-- The URL-safe no-padding base64 of `n` bytes has `(4 * n + 2) / 3`
characters (4 per 3-byte group, 2 or 3 for a trailing group). -/
theorem b64UrlNoPad_length : ∀ l : List Nat, (b64UrlNoPad l).length = (4 * l.length + 2) / 3
  | [] => rfl
  | [_] => by simp [b64UrlNoPad]
  | [_, _] => by simp [b64UrlNoPad]
  | b0 :: b1 :: b2 :: rest => by
    simp only [b64UrlNoPad, List.length_cons]
    rw [b64UrlNoPad_length rest]
    omega

/-- Claim C2 (confirmed): every generated code verifier has length in
`[43, 128]` — with the source's 48 random bytes the encoding has exactly
64 characters — a pre-padding length of 40 is padded to exactly 43, and
the code challenge is by construction the URL-safe no-padding base64
encoding of the SHA-256 digest of the verifier's bytes, a deterministic
function of the verifier. -/
theorem pkce_verifier_challenge_props (vr : List Nat) (s : List Char)
    (h40 : s.length = 40) :
    (43 ≤ (mkCodeVerifier vr).length ∧ (mkCodeVerifier vr).length ≤ 128)
    ∧ (vr.length = 48 → (mkCodeVerifier vr).length = 64)
    ∧ (normalizeVerifier s).length = 43
    ∧ mkCodeChallenge (mkCodeVerifier vr)
        = b64UrlNoPad (sha256 ((mkCodeVerifier vr).map Char.toNat)) := by
  have hv : (mkCodeVerifier vr).length = min 128 (max 43 (b64UrlNoPad vr).length) :=
    normalizeVerifier_length _
  refine ⟨⟨?_, ?_⟩, ?_, ?_, rfl⟩
  · rw [hv]; omega
  · rw [hv]; omega
  · intro h48
    rw [hv, b64UrlNoPad_length, h48]
    decide
  · rw [normalizeVerifier_length, h40]
    decide

/-- Witness for the C2 theorem at the 48-byte all-zero draw and a 40-char
pre-padding string. -/
theorem pkce_verifier_challenge_props_witness :
    (List.replicate 40 'a').length = 40
    ∧ (43 ≤ (mkCodeVerifier (List.replicate 48 0)).length
        ∧ (mkCodeVerifier (List.replicate 48 0)).length ≤ 128)
    ∧ (mkCodeVerifier (List.replicate 48 0)).length = 64
    ∧ (normalizeVerifier (List.replicate 40 'a')).length = 43 :=
  let h := pkce_verifier_challenge_props (List.replicate 48 0) (List.replicate 40 'a')
    (by decide)
  ⟨by decide, h.1, h.2.1 (by decide), h.2.2.1⟩

/-! ## Lemmas and claim theorems: redirect parsing -/

/-- The last decoded `code` value the pair loop remembers, as a fold
(the loop overwrites `code_opt` at every `code` key). -/
def lastCodeValue (acc : Option (List Char)) (ps : List (List Char × List Char)) :
    Option (List Char) :=
  ps.foldl (fun a p => if p.1 = "code".data then some (percentDecode p.2) else a) acc

/-- If some pair carries the `state` key with a decoded value different
from the expected state, the pair loop aborts with the state-mismatch
error (the loop's only early exit). -/
theorem scanPairs_mismatch (expected : List Char) :
    ∀ (ps : List (List Char × List Char)) (acc : Option (List Char)),
      (∃ p ∈ ps, p.1 = "state".data ∧ percentDecode p.2 ≠ expected) →
      scanPairs expected acc ps = Except.error "state mismatch" := by
  intro ps
  induction ps with
  | nil => intro acc h; simp at h
  | cons p rest ih =>
    intro acc h
    by_cases hm : p.1 = "state".data ∧ percentDecode p.2 ≠ expected
    · simp [scanPairs, hm]
    · rcases h with ⟨q, hq, hqs⟩
      rcases List.mem_cons.1 hq with hq | hq
      · exact absurd (hq ▸ hqs) hm
      · simp only [scanPairs, if_neg hm]
        exact ih _ ⟨q, hq, hqs⟩

/-- If no pair carries a mismatching `state` value, the pair loop runs to
the end and returns the last decoded `code` value. -/
theorem scanPairs_no_mismatch (expected : List Char) :
    ∀ (ps : List (List Char × List Char)) (acc : Option (List Char)),
      (∀ p ∈ ps, p.1 = "state".data → percentDecode p.2 = expected) →
      scanPairs expected acc ps = Except.ok (lastCodeValue acc ps) := by
  intro ps
  induction ps with
  | nil => intro acc _; rfl
  | cons p rest ih =>
    intro acc h
    have hm : ¬(p.1 = "state".data ∧ percentDecode p.2 ≠ expected) := by
      rintro ⟨h1, h2⟩
      exact h2 (h p (List.mem_cons_self p rest) h1)
    simp only [scanPairs, if_neg hm, lastCodeValue, List.foldl_cons]
    exact ih _ (fun q hq => h q (List.mem_cons_of_mem p hq))

/-- The fold over the pairs ends with no code exactly when it started
with none and no pair carries the `code` key. -/
theorem lastCodeValue_eq_none :
    ∀ (ps : List (List Char × List Char)) (acc : Option (List Char)),
      lastCodeValue acc ps = none ↔ acc = none ∧ ∀ p ∈ ps, p.1 ≠ "code".data := by
  intro ps
  induction ps with
  | nil => intro acc; simp [lastCodeValue]
  | cons p rest ih =>
    intro acc
    by_cases hp : p.1 = "code".data
    · simp only [lastCodeValue, List.foldl_cons, if_pos hp]
      rw [show (List.foldl (fun a q => if q.1 = "code".data then some (percentDecode q.2) else a)
          (some (percentDecode p.2)) rest) = lastCodeValue (some (percentDecode p.2)) rest from rfl,
        ih]
      simp [hp]
    · simp only [lastCodeValue, List.foldl_cons, if_neg hp]
      rw [show (List.foldl (fun a q => if q.1 = "code".data then some (percentDecode q.2) else a)
          acc rest) = lastCodeValue acc rest from rfl, ih]
      constructor
      · rintro ⟨h1, h2⟩
        exact ⟨h1, fun q hq => by
          rcases List.mem_cons.1 hq with hq | hq
          · exact hq ▸ hp
          · exact h2 q hq⟩
      · rintro ⟨h1, h2⟩
        exact ⟨h1, fun q hq => h2 q (List.mem_cons_of_mem p hq)⟩

/-- Claim C3 (confirmed): a redirect request whose query string carries a
`state` parameter whose decoded value differs from the attempt's expected
state is rejected with the state-mismatch error, and no authorization code
is extracted, regardless of any `code` parameter in the query string. -/
theorem parseRedirect_state_mismatch_rejected (req expected target qs : List Char)
    (h1 : requestTarget req = some target)
    (h2 : queryOf target = some qs)
    (h3 : ∃ p ∈ queryPairs qs, p.1 = "state".data ∧ percentDecode p.2 ≠ expected) :
    parseRedirect req expected = Except.error "state mismatch"
    ∧ ∀ c, parseRedirect req expected ≠ Except.ok c := by
  have herr : scanPairs expected none (queryPairs qs) = Except.error "state mismatch" :=
    scanPairs_mismatch expected (queryPairs qs) none h3
  have hmain : parseRedirect req expected = Except.error "state mismatch" := by
    simp [parseRedirect, h1, h2, herr]
  exact ⟨hmain, fun c h => Except.noConfusion (hmain ▸ h)⟩

/-- Witness for the C3 theorem: a concrete redirect carrying a `code` but
a wrong `state` is rejected. -/
theorem parseRedirect_state_mismatch_rejected_witness :
    parseRedirect "GET /?code=abc&state=evil HTTP/1.1".data "good".data
      = Except.error "state mismatch" :=
  (parseRedirect_state_mismatch_rejected "GET /?code=abc&state=evil HTTP/1.1".data
    "good".data "/?code=abc&state=evil".data "code=abc&state=evil".data
    rfl rfl (by decide)).1

/-- An `Except` result is not ok exactly when it is some error. -/
theorem except_isOk_false_iff {α : Type} (x : Except String α) :
    x.isOk = false ↔ ∃ e, x = Except.error e := by
  cases x <;> simp [Except.isOk, Except.toBool]

/-- Claim C4 (confirmed): the redirect parsing fails exactly when the
first request line has fewer than two whitespace-separated tokens, or the
request target contains no question mark, or some `state` parameter
decodes to a value different from the expected state, or no `code`
parameter occurs — in particular a request without `code` is rejected
even when its `state` matches. -/
theorem parseRedirect_error_characterization (req expected : List Char) :
    (parseRedirect req expected).isOk = false ↔
      ((splitWs (firstLine req)).length < 2
      ∨ (∃ target, requestTarget req = some target ∧ '?' ∉ target)
      ∨ (∃ target qs, requestTarget req = some target ∧ queryOf target = some qs ∧
            ∃ p ∈ queryPairs qs, p.1 = "state".data ∧ percentDecode p.2 ≠ expected)
      ∨ (∃ target qs, requestTarget req = some target ∧ queryOf target = some qs ∧
            ∀ p ∈ queryPairs qs, p.1 ≠ "code".data)) := by
  cases ht : requestTarget req with
  | none =>
    have hlen : (splitWs (firstLine req)).length < 2 := by
      have h' := ht
      unfold requestTarget at h'
      rw [List.get?_eq_none] at h'
      omega
    simp [parseRedirect, ht, Except.isOk, Except.toBool, hlen]
  | some target =>
    have hlen2 : ¬ (splitWs (firstLine req)).length < 2 := by
      intro hlt
      unfold requestTarget at ht
      rw [List.get?_eq_none.2 (by omega)] at ht
      cases ht
    cases hq : queryOf target with
    | none =>
      have hnq : '?' ∉ target := by
        intro hmem
        unfold queryOf at hq
        rw [if_pos hmem] at hq
        cases hq
      simp [parseRedirect, ht, hq, Except.isOk, Except.toBool, hlen2, hnq]
    | some qs =>
      have hq2 : '?' ∈ target := by
        by_contra hmem
        unfold queryOf at hq
        rw [if_neg hmem] at hq
        cases hq
      by_cases hmis : ∃ p ∈ queryPairs qs, p.1 = "state".data ∧ percentDecode p.2 ≠ expected
      · have he := scanPairs_mismatch expected (queryPairs qs) none hmis
        simp [parseRedirect, ht, hq, he, Except.isOk, Except.toBool, hlen2, hq2, hmis]
        obtain ⟨p, hp, hp1, hp2⟩ := hmis
        exact Or.inl ⟨p.1, p.2, by simpa using hp, hp1, hp2⟩
      · have hok := scanPairs_no_mismatch expected (queryPairs qs) none (by
          intro p hp hs
          by_contra hne
          exact hmis ⟨p, hp, hs, hne⟩)
        cases hcv : lastCodeValue none (queryPairs qs) with
        | none =>
          have hnc := (lastCodeValue_eq_none (queryPairs qs) none).1 hcv
          simp [parseRedirect, ht, hq, hok, hcv, Except.isOk, Except.toBool, hlen2, hq2,
            hmis, hnc.2]
          exact Or.inr (fun a b hab => hnc.2 (a, b) hab)
        | some c =>
          have hsc : ¬ ∀ p ∈ queryPairs qs, p.1 ≠ "code".data := by
            intro hall
            rw [(lastCodeValue_eq_none (queryPairs qs) none).2 ⟨rfl, hall⟩] at hcv
            cases hcv
          simp [parseRedirect, ht, hq, hok, hcv, Except.isOk, Except.toBool, hlen2, hq2,
            hmis, hsc]
          constructor
          · intro a b hab hs
            by_contra hne
            exact hmis ⟨(a, b), hab, hs, hne⟩
          · rcases not_forall.1 hsc with ⟨p, hp⟩
            rcases Classical.not_imp.1 hp with ⟨hpmem, hpcode⟩
            have hc : p.1 = "code".data := not_not.1 hpcode
            have hmem2 : (p.1, p.2) ∈ queryPairs qs := by simpa using hpmem
            exact ⟨p.2, by rw [hc] at hmem2; exact hmem2⟩
